import Mathlib

/-!
Shallow embedding of the Shift Handover application core (src/app.py):
text normalisation (`clean_lines`, `pick_items`), the SBAR one-liner
builder (`make_sbar_oneliner`), the on-screen markdown summary
(`make_handover_summary_md`), and the two PDF layout engines
(`pdf_build_detailed` and `pdf_build_one_page_condensed`), modelled as
pure functions from the request inputs to an abstract stream of draw
commands.

Conventions of the embedding:
* Python strings are `List Char`; `None` becomes `none : Option (List Char)`.
* Every length in the source is an exact multiple of the ReportLab unit
  `mm`, so all coordinates are rationals measured in millimetres (A4 is
  210 × 297); dividing the source's point values by the positive
  constant `mm` preserves every comparison the layout makes.
* Canvas colour and font changes are input-independent constants at each
  call site and are elided from the command stream; `c.showPage()` during
  a page break is the `newPage` command (the final `showPage`/`save`
  that closes the last page emits nothing).
* `ImageReader`/`getSize` on the uploaded logo bytes is an abstract
  decoder `List Nat → Option (ℚ × ℚ)` returning the image size, `none`
  when decoding raises.
-/

namespace Handover

/-- Characters for which Python `str.isspace()` returns true.
`str.strip()` with no argument strips exactly these, and the regex class
`\x7b\s\x7d` used by `textwrap` matches exactly the same set. -/
def pyIsSpace (c : Char) : Bool :=
  c = ' ' || c = '\t' || c = '\n' || c = '\x0b' || c = '\x0c' || c = '\r' ||
  c = '\x1c' || c = '\x1d' || c = '\x1e' || c = '\x1f' || c = '\u0085' ||
  c = '\u00A0' || c = '\u1680' ||
  ('\u2000' ≤ c && c ≤ '\u200A') ||
  c = '\u2028' || c = '\u2029' || c = '\u202F' || c = '\u205F' || c = '\u3000'

/-- Line-boundary characters of Python `str.splitlines` (the
two-character boundary CR LF is handled separately). -/
def pyLineBreak (c : Char) : Bool :=
  c = '\n' || c = '\r' || c = '\x0b' || c = '\x0c' ||
  c = '\x1c' || c = '\x1d' || c = '\x1e' || c = '\u0085' ||
  c = '\u2028' || c = '\u2029'

/-- Worker for `pySplitlines`; `acc` holds the current line reversed.
A trailing empty line is not emitted, matching Python. -/
def pySplitlinesGo (acc : List Char) : List Char → List (List Char)
  | [] => if acc.isEmpty then [] else [acc.reverse]
  | '\r' :: '\n' :: rest => acc.reverse :: pySplitlinesGo [] rest
  | c :: cs =>
    if pyLineBreak c then acc.reverse :: pySplitlinesGo [] cs
    else pySplitlinesGo (c :: acc) cs

/-- Python `str.splitlines`. -/
def pySplitlines (s : List Char) : List (List Char) := pySplitlinesGo [] s

/-- Python `str.strip(chars)`: remove characters satisfying `p` from both
ends. -/
def pyStrip (p : Char → Bool) (s : List Char) : List Char :=
  (s.dropWhile p).rdropWhile p

/-- The character set of the literal strip argument in `clean_lines`:
space, tab, hyphen and the bullet sign. -/
def stripSet (c : Char) : Bool := c = ' ' || c = '\t' || c = '-' || c = '\u2022'

/-- Python `str.strip()` with no argument. -/
def pyStripWs (s : List Char) : List Char := pyStrip pyIsSpace s

/-- Model of `clean_lines` (src/app.py lines 45-49): split on line
boundaries, strip spaces, tabs, hyphens and bullets from both ends of
each line, and keep the lines whose whitespace-strip is non-empty.
The argument is optional: `none` models Python `None` (the guard
`if not text` also catches the empty string). -/
def clean_lines : Option (List Char) → List (List Char)
  | none => []
  | some text =>
    if text.isEmpty then []
    else ((pySplitlines text).map (pyStrip stripSet)).filter
      (fun ln => !(pyStripWs ln).isEmpty)

/-- The source always calls `clean_lines` on a plain string. -/
def cleanTxt (text : List Char) : List (List Char) := clean_lines (some text)

/-- The literal token returned by `pick_items` for an empty item list. -/
def noneTok : List Char := "none".data

/-- The separator of `"; ".join`. -/
def semiSep : List Char := "; ".data

/-- Model of `pick_items` (src/app.py lines 52-56). -/
def pick_items (text : List Char) (n : Nat) : List Char :=
  let items := cleanTxt text
  if items.isEmpty then noneTok
  else List.intercalate semiSep (items.take n)

/-- Model of `make_sbar_oneliner` (src/app.py lines 185-192). -/
def make_sbar_oneliner
    (area shift incidents staffing residents tasks escalation : List Char) :
    List Char :=
  let s := (if area.isEmpty then ("Area".data) else area) ++ " ".data ++ shift ++ ": ".data
  let b := "incidents ".data ++ pick_items incidents 2 ++ ", staffing ".data ++
    pick_items staffing 2 ++ "; ".data
  let a := "concerns ".data ++ pick_items residents 2 ++ "; ".data
  let e := pyStripWs escalation
  let r := "tasks ".data ++ pick_items tasks 2 ++
    (if e.isEmpty then [] else "; escalate: ".data ++ e)
  pyStripWs (s ++ b ++ a ++ r ++ ".".data)

/-! ### The `textwrap.wrap` model

The source wraps with `textwrap.wrap(text, width, break_long_words=False,
break_on_hyphens=False)`; the remaining options keep their defaults
(`expand_tabs`, `replace_whitespace`, `drop_whitespace` true, no indents,
no `max_lines`).  The model below follows CPython's
`TextWrapper._munge_whitespace`, `_split` (simple word-separator regex)
and `_wrap_chunks` under exactly those options. -/

/-- Python `str.expandtabs()` with tab size 8; the column resets after a
newline or carriage return. -/
def expandTabsGo : Nat → List Char → List Char
  | _, [] => []
  | col, '\t' :: cs =>
    let pad := 8 - col % 8
    List.replicate pad ' ' ++ expandTabsGo (col + pad) cs
  | col, c :: cs =>
    if c = '\n' || c = '\r' then c :: expandTabsGo 0 cs
    else c :: expandTabsGo (col + 1) cs

/-- `textwrap._munge_whitespace`: expand tabs, then replace each of the
six ASCII whitespace characters by a plain space. -/
def mungeWs (s : List Char) : List Char :=
  (expandTabsGo 0 s).map fun c =>
    if c = '\t' || c = '\n' || c = '\x0b' || c = '\x0c' || c = '\r' || c = ' '
    then (' ') else c

/-- Worker splitting a text into maximal runs of whitespace and
non-whitespace characters; `cls` is the class of the run in `acc`. -/
def splitChunksGo (cls : Bool) (acc : List Char) : List Char → List (List Char)
  | [] => [acc.reverse]
  | c :: cs =>
    if pyIsSpace c = cls then splitChunksGo cls (c :: acc) cs
    else acc.reverse :: splitChunksGo (pyIsSpace c) [c] cs

/-- `textwrap._split` with the simple word-separator regex (used when
`break_on_hyphens` is false): alternating whitespace and word chunks. -/
def splitChunks : List Char → List (List Char)
  | [] => []
  | c :: cs => splitChunksGo (pyIsSpace c) [c] cs

/-- A chunk is whitespace when `chunk.strip() == ''`. -/
def isWsChunk (cs : List Char) : Bool := cs.all pyIsSpace

/-- Greedy fill of one line: take chunks while the line stays within
`width`. -/
def greedyTake (width : Nat) :
    Nat → List (List Char) → List (List Char) →
    (List (List Char) × List (List Char))
  | _, acc, [] => (acc.reverse, [])
  | curLen, acc, c :: cs =>
    if curLen + c.length ≤ width then greedyTake width (curLen + c.length) (c :: acc) cs
    else (acc.reverse, c :: cs)

/-- The main loop of `textwrap.TextWrapper._wrap_chunks` under the
source's options.  Each iteration consumes at least one chunk, so fuel
`chunks.length + 1` makes the fuel bound unreachable. -/
def wrapGo (width : Nat) : Nat → List (List Char) → List (List Char) → List (List Char)
  | 0, lines, _ => lines.reverse
  | _ + 1, lines, [] => lines.reverse
  | fuel + 1, lines, chunk :: chunks =>
    let rest0 := if isWsChunk chunk && !lines.isEmpty then chunks else chunk :: chunks
    let takeRes := greedyTake width 0 [] rest0
    let long :=
      match takeRes.2 with
      | w :: rs =>
        if width < w.length && takeRes.1.isEmpty then (([w] : List (List Char)), rs)
        else (takeRes.1, takeRes.2)
      | [] => (takeRes.1, takeRes.2)
    let cur2 := if (long.1.getLast?.elim false isWsChunk) then long.1.dropLast else long.1
    let lines2 := if cur2.isEmpty then lines else cur2.flatten :: lines
    wrapGo width fuel lines2 long.2

/-- Model of `textwrap.wrap(text, width, break_long_words=False,
break_on_hyphens=False)`. -/
def pyWrap (width : Nat) (text : List Char) : List (List Char) :=
  let chunks := splitChunks (mungeWs text)
  wrapGo width (chunks.length + 1) [] chunks

/-! ### The on-screen markdown summary -/

/-- The em dash placeholder used for blank fields. -/
def emdash : List Char := "—".data

/-- Python `(x.strip() if x else "")`. -/
def pyTruthyStrip (s : List Char) : List Char :=
  if s.isEmpty then [] else pyStripWs s

/-- The `section` helper inside `make_handover_summary_md` (src/app.py
lines 196-200). -/
def mdSection (title : List Char) (items : List (List Char)) : List Char :=
  if items.isEmpty then "**".data ++ title ++ ":** None reported.\n".data
  else "**".data ++ title ++ ":**\n".data ++
    List.intercalate ("\n".data) (items.map (fun x => "- ".data ++ x)) ++ "\n".data

/-- The constant reviewed block substituted in print-safe mode
(src/app.py line 223); the dash in it is an en dash. -/
def mdHiddenBlock : List Char := "\n---\n**Reviewed by:** (hidden – print-safe mode)\n".data

/-- Model of `make_handover_summary_md` (src/app.py lines 195-231). -/
def make_handover_summary_md
    (area shift created_at incidents staffing residents tasks escalation
     reviewed_by review_date : List Char) (print_safe : Bool) : List Char :=
  let header := "### Handover Summary\n**Area:** ".data ++
    (if area.isEmpty then emdash else area) ++
    " &nbsp;&nbsp;|&nbsp;&nbsp; **Shift:** ".data ++ shift ++
    " &nbsp;&nbsp;|&nbsp;&nbsp; **Generated:** ".data ++ created_at ++ "\n".data
  let body := mdSection ("Incidents today".data) (cleanTxt incidents) ++
    "\n".data ++ mdSection ("Staffing issues".data) (cleanTxt staffing) ++
    "\n".data ++ mdSection ("Residents of concern".data) (cleanTxt residents) ++
    "\n".data ++ mdSection ("Tasks outstanding".data) (cleanTxt tasks)
  let esc := pyStripWs escalation
  let escLine := "\n**Escalation / Notes:** ".data ++
    (if esc.isEmpty then ("None.".data) else esc) ++ "\n".data
  let reviewedBlock :=
    if print_safe then mdHiddenBlock
    else "\n---\n**Reviewed by:** ".data ++
      (if (pyTruthyStrip reviewed_by).isEmpty then emdash else pyTruthyStrip reviewed_by) ++
      "\x20\x20\n**Review date:** ".data ++
      (if (pyTruthyStrip review_date).isEmpty then emdash else pyTruthyStrip review_date) ++ "\n".data
  header ++ "\n".data ++ body ++ escLine ++ reviewedBlock

/-! ### The abstract draw-command stream

Coordinates are rationals in millimetres.  `newPage` marks the
`c.showPage()` of a page break; the implicit finalisation of the last
page emits nothing, so a stream with `k` `newPage` commands describes a
document of `k + 1` pages. -/

inductive DrawCmd where
  | line (x1 y1 x2 y2 : ℚ)
  | rect (x y w h : ℚ)
  | roundRect (x y w h r : ℚ)
  | text (x y : ℚ) (s : List Char)
  | rightText (x y : ℚ) (s : List Char)
  | image (x y w h : ℚ)
  | newPage
deriving DecidableEq

/-- The layout cursor of the detailed builder: vertical position and
current page number. -/
structure DState where
  y : ℚ
  page : Nat
deriving DecidableEq

/-- The context the detailed builder's nested closures capture: the
generation timestamp, area and shift labels, and the two print-safe
filtered reviewer strings. -/
structure PageCtx where
  created_at : List Char
  area : List Char
  shift : List Char
  reviewed_by_pdf : List Char
  review_date_pdf : List Char

/-- All inputs of the two PDF builders (the condensed builder ignores
`completed_by`, which `pdf_build_detailed` also never draws). -/
structure BuildArgs where
  logo_bytes : Option (List Nat)
  org_name : List Char
  area : List Char
  shift : List Char
  created_at : List Char
  completed_by : List Char
  reviewed_by : List Char
  review_date : List Char
  incidents : List Char
  staffing : List Char
  residents : List Char
  tasks : List Char
  escalation : List Char
  sbar : List Char
  print_safe : Bool

/-- Python truthiness of the optional logo bytes. -/
def logoTruthy : Option (List Nat) → Bool
  | none => false
  | some bs => !bs.isEmpty

/-- Model of `_draw_logo_if_present` (src/app.py lines 237-248): nothing
for missing or empty bytes, nothing when the decoder raises, otherwise
one scaled image command. -/
def drawLogoCmds (dec : List Nat → Option (ℚ × ℚ)) (logo : Option (List Nat))
    (x y maxw maxh : ℚ) : List DrawCmd :=
  match logo with
  | none => []
  | some bs =>
    if bs.isEmpty then []
    else
      match dec bs with
      | none => []
      | some wh =>
        let scale := min (maxw / wh.1) (maxh / wh.2)
        [.image x (y - wh.2 * scale) (wh.1 * scale) (wh.2 * scale)]

/-- The first line of the product identity footer. -/
def appName : List Char := "Shift Handover Pro".data

/-- The identity line every footer draws. -/
def appFooterLine : List Char :=
  "Shift Handover Pro v1.0 • Support: finlayajayi@rocketmail.com".data

/-! ### The detailed builder (src/app.py lines 251-435) -/

/-- The `footer` closure of `pdf_build_detailed` (lines 283-300): rule,
timestamp, page number, identity line, and — only when a reviewer field
survived the print-safe filter — a right-aligned reviewed-by line. -/
def footerCmdsD (ctx : PageCtx) (p : Nat) : List DrawCmd :=
  [.line 16 28 194 28,
   .text 16 22 ("Generated: ".data ++ ctx.created_at),
   .rightText 194 22 ("Page ".data ++ (Nat.repr p).data),
   .text 16 (37/2) appFooterLine] ++
  (if ctx.reviewed_by_pdf.isEmpty && ctx.review_date_pdf.isEmpty then []
   else [.rightText 194 (37/2) ("Reviewed by: ".data ++
     (if ctx.reviewed_by_pdf.isEmpty then emdash else ctx.reviewed_by_pdf) ++
     " • ".data ++
     (if ctx.review_date_pdf.isEmpty then emdash else ctx.review_date_pdf))])

/-- The `draw_compact_header` closure (lines 333-346). -/
def compactHeaderCmds (ctx : PageCtx) : List DrawCmd :=
  [.rect 0 287 210 10,
   .text 16 290 ("Shift Handover".data),
   .rightText 194 290 ((if ctx.area.isEmpty then emdash else ctx.area) ++
     " • ".data ++ ctx.shift ++ " • ".data ++ ctx.created_at)]

/-- The `ensure_space` closure (lines 306-313): when the cursor minus the
required height would cross the footer-reserved zone, stamp the footer,
open a new page and draw the compact header. -/
def ensureSpace (ctx : PageCtx) (required : ℚ) (st : DState) :
    List DrawCmd × DState :=
  if st.y - required < 36 then
    (footerCmdsD ctx st.page ++ .newPage :: compactHeaderCmds ctx,
     ⟨277, st.page + 1⟩)
  else ([], st)

/-- The placeholder line for an empty section. -/
def noneReported : List Char := "None reported.".data

/-- The bullet prefix of a section's first wrapped line. -/
def bulletPre : List Char := "•\x20".data

/-- The three-space continuation indent of the detailed layout. -/
def contPre3 : List Char := "\x20\x20\x20".data

/-- The wrapped bullet-line list of one detailed section (lines 350-361):
wrap every cleaned item at width 92, bullet on the first line of each
item, indented continuation lines, placeholder for an empty section.
The empty-wrap branch is unreachable (a cleaned item always contains a
non-whitespace character; on it Python would raise `IndexError`). -/
def sectionBulletLines (text : List Char) : List (List Char) :=
  let items := cleanTxt text
  if items.isEmpty then [noneReported]
  else items.flatMap fun it =>
    match pyWrap 92 it with
    | [] => []
    | w :: ws => (bulletPre ++ w) :: ws.map (fun cont => contPre3 ++ cont)

/-- Text commands of wrapped lines in the detailed layout: the cursor is
decremented by the line pitch before each draw. -/
def lineTextCmdsUp (x : ℚ) : ℚ → ℚ → List (List Char) → List DrawCmd
  | _, _, [] => []
  | ty, dh, ln :: ls => .text x (ty - dh) ln :: lineTextCmdsUp x (ty - dh) dh ls

/-- Title plus card of one detailed block at cursor position `y`
(lines 366-388 and 399-419): title text, rounded card sized from the
line count, then the wrapped lines. -/
def cardBodyCmds (title : List Char) (ls : List (List Char)) (y : ℚ) :
    List DrawCmd :=
  let cardH := 12 + 26/5 * (ls.length : ℚ)
  .text 16 y title :: .roundRect 16 (y - 6 - cardH) 178 cardH 6 ::
    lineTextCmdsUp 23 (y - 12) (26/5) ls

/-- The look-ahead space requirement of a block with `n` wrapped lines
(lines 363 and 396): `(10 + 8 + n * 5.4 + 18) * mm`. -/
def requiredHeight (n : Nat) : ℚ := 36 + 27/5 * (n : ℚ)

/-- The `draw_section` closure (lines 348-389). -/
def drawSection (ctx : PageCtx) (title text : List Char) (st : DState) :
    List DrawCmd × DState :=
  let ls := sectionBulletLines text
  let es := ensureSpace ctx (requiredHeight ls.length) st
  let cardH := 12 + 26/5 * (ls.length : ℚ)
  (es.1 ++ cardBodyCmds title ls es.2.y, ⟨es.2.y - 14 - cardH, es.2.page⟩)

/-- The wrapped line list of a notes block (lines 393-394): wrap the
stripped text (or the placeholder) at width 100; `or [note]` keeps the
note itself if the wrap comes back empty. -/
def notesLines (text : List Char) : List (List Char) :=
  let note := if (pyStripWs text).isEmpty then ("None.".data) else pyStripWs text
  match pyWrap 100 note with
  | [] => [note]
  | ls => ls

/-- The `draw_notes` closure (lines 391-422); identical geometry to
`draw_section` but un-bulleted lines from `notesLines`. -/
def drawNotes (ctx : PageCtx) (title text : List Char) (st : DState) :
    List DrawCmd × DState :=
  let ls := notesLines text
  let es := ensureSpace ctx (requiredHeight ls.length) st
  let cardH := 12 + 26/5 * (ls.length : ℚ)
  (es.1 ++ cardBodyCmds title ls es.2.y, ⟨es.2.y - 14 - cardH, es.2.page⟩)

/-- The two kinds of detailed blocks. -/
inductive BlockKind where
  | sec
  | notes
deriving DecidableEq

/-- Sequential execution of the six block-drawing calls
(lines 426-431), threading the cursor state. -/
def runBlocks (ctx : PageCtx) :
    List (BlockKind × List Char × List Char) → DState → List DrawCmd × DState
  | [], st => ([], st)
  | b :: bs, st =>
    let r := match b.1 with
      | .sec => drawSection ctx b.2.1 b.2.2 st
      | .notes => drawNotes ctx b.2.1 b.2.2 st
    let rest := runBlocks ctx bs r.2
    (r.1 ++ rest.1, rest.2)

/-- The `draw_header_bar` closure (lines 315-331): brand band, optional
logo, title (shifted right when logo bytes are present, decoded or not)
and right-aligned brand name. -/
def headerBarCmds (dec : List Nat → Option (ℚ × ℚ)) (logo : Option (List Nat))
    (org : List Char) : List DrawCmd :=
  .rect 0 277 210 20 :: (drawLogoCmds dec logo 16 293 26 14 ++
    [.text (16 + (if logoTruthy logo then (30 : ℚ) else 0)) (567/2) ("Shift Handover".data),
     .rightText 194 (2837/10) (if (pyStripWs org).isEmpty then appName else pyStripWs org)])

/-- The print-safe filtered context (lines 279-281; `completed_by_pdf` is
also computed there but never drawn afterwards). -/
def mkCtx (a : BuildArgs) : PageCtx :=
  { created_at := a.created_at, area := a.area, shift := a.shift,
    reviewed_by_pdf := if a.print_safe then [] else pyTruthyStrip a.reviewed_by,
    review_date_pdf := if a.print_safe then [] else pyTruthyStrip a.review_date }

/-- The fixed block sequence of the detailed document (lines 426-431). -/
def detailedBlockList (a : BuildArgs) : List (BlockKind × List Char × List Char) :=
  [(.sec, "Incidents today".data, a.incidents),
   (.sec, "Staffing issues".data, a.staffing),
   (.sec, "Residents of concern".data, a.residents),
   (.sec, "Tasks outstanding".data, a.tasks),
   (.notes, "Escalation / Notes".data, a.escalation),
   (.notes, "SBAR one-liner".data, a.sbar)]

/-- Model of `pdf_build_detailed` (lines 251-435): header bar, the six
blocks from the initial cursor (`y = 297 - 20 - 8`, page 1), final
footer. -/
def pdf_build_detailed (dec : List Nat → Option (ℚ × ℚ)) (a : BuildArgs) :
    List DrawCmd :=
  let ctx := mkCtx a
  let r := runBlocks ctx (detailedBlockList a) ⟨269, 1⟩
  headerBarCmds dec a.logo_bytes a.org_name ++ r.1 ++ footerCmdsD ctx r.2.page

/-! ### The condensed builder (src/app.py lines 438-556) -/

/-- The condensed placeholder line for an empty block. -/
def noneDash : List Char := "- None.".data

/-- The dash prefix of a condensed first line. -/
def dashPre : List Char := "-\x20".data

/-- The two-space continuation indent of the condensed layout. -/
def contPre2 : List Char := "\x20\x20".data

/-- The literal truncation marker of the condensed layout. -/
def moreTok : List Char := "(more in app)".data

/-- The wrapped line list of one condensed block before truncation
(lines 498-508): wrap every cleaned item at width 95. -/
def condBlockLines (text : List Char) : List (List Char) :=
  let items := cleanTxt text
  if items.isEmpty then [noneDash]
  else items.flatMap fun it =>
    match pyWrap 95 it with
    | [] => []
    | w :: ws => (dashPre ++ w) :: ws.map (fun cont => contPre2 ++ cont)

/-- Truncation of a condensed block to its cap (lines 510-511). -/
def condRendered (text : List Char) (maxLines : Nat) : List (List Char) :=
  let lines := condBlockLines text
  if maxLines < lines.length then lines.take maxLines ++ [moreTok] else lines

/-- Text commands of wrapped lines in the condensed layout: the line is
drawn first, then the cursor is decremented. -/
def lineTextCmdsDown (x : ℚ) : ℚ → ℚ → List (List Char) → List DrawCmd
  | _, _, [] => []
  | ty, dh, ln :: ls => .text x ty ln :: lineTextCmdsDown x (ty - dh) dh ls

/-- The `block` closure (lines 497-531): title, rounded card sized from
the truncated line count, the lines, and the advanced cursor. -/
def blockStep (y : ℚ) (title text : List Char) (cap : Nat) :
    List DrawCmd × ℚ :=
  let ls := condRendered text cap
  let h := 24/5 * (ls.length : ℚ) + 8
  (.text 14 y title :: .roundRect 14 (y - 5 - h) 182 h 6 ::
     lineTextCmdsDown 20 (y - 11) (24/5) ls,
   y - 11 - h)

/-- Sequential execution of the six condensed blocks (lines 546-551). -/
def runCBlocks : List (List Char × List Char × Nat) → ℚ → List DrawCmd × ℚ
  | [], y => ([], y)
  | b :: bs, y =>
    let r := blockStep y b.1 b.2.1 b.2.2
    let rest := runCBlocks bs r.2
    (r.1 ++ rest.1, rest.2)

/-- The fixed block sequence and per-block caps of the condensed document
(lines 546-551). -/
def condBlockList (a : BuildArgs) : List (List Char × List Char × Nat) :=
  [("Incidents today".data, a.incidents, 6),
   ("Staffing issues".data, a.staffing, 5),
   ("Residents of concern".data, a.residents, 6),
   ("Tasks outstanding".data, a.tasks, 6),
   ("Escalation / Notes".data, a.escalation, 3),
   ("SBAR one-liner".data, a.sbar, 2)]

/-- The `title_bar` closure (lines 467-479). -/
def titleBarCmds (dec : List Nat → Option (ℚ × ℚ)) (logo : Option (List Nat))
    (org : List Char) : List DrawCmd :=
  .rect 0 281 210 16 :: (drawLogoCmds dec logo 14 294 22 12 ++
    [.text (14 + (if logoTruthy logo then (26 : ℚ) else 0)) (2857/10)
       ("Shift Handover (Condensed)".data),
     .rightText 196 286 (if (pyStripWs org).isEmpty then appName else pyStripWs org)])

/-- The grey metadata strip of the condensed page (lines 536-543). -/
def metaRowCmds (area shift created : List Char) : List DrawCmd :=
  [.rect 14 255 182 10,
   .text 18 (1292/5) ("Area: ".data ++ (if area.isEmpty then emdash else area)),
   .text 84 (1292/5) ("Shift: ".data ++ shift),
   .rightText 192 (1292/5) ("Generated: ".data ++ created)]

/-- The condensed `footer` closure (lines 481-495). -/
def condFooterCmds (rbp rdp created : List Char) : List DrawCmd :=
  [.line 14 25 196 25,
   .text 14 20 ("Generated: ".data ++ created),
   .text 14 (33/2) appFooterLine] ++
  (if rbp.isEmpty && rdp.isEmpty then []
   else [.rightText 196 (33/2) ("Reviewed by: ".data ++
     (if rbp.isEmpty then emdash else rbp) ++ " • ".data ++
     (if rdp.isEmpty then emdash else rdp))])

/-- Model of `pdf_build_one_page_condensed` (lines 438-556): title bar,
metadata strip, the six capped blocks from `y = 249`, footer.  The single
final `showPage` closes the only page; no page break exists in this
builder, so the stream never contains `newPage`. -/
def pdf_build_one_page_condensed (dec : List Nat → Option (ℚ × ℚ))
    (a : BuildArgs) : List DrawCmd :=
  let rbp := if a.print_safe then [] else pyTruthyStrip a.reviewed_by
  let rdp := if a.print_safe then [] else pyTruthyStrip a.review_date
  let r := runCBlocks (condBlockList a) 249
  titleBarCmds dec a.logo_bytes a.org_name ++
    metaRowCmds a.area a.shift a.created_at ++ r.1 ++
    condFooterCmds rbp rdp a.created_at

/-! ### Observers of the command stream -/

/-- The page-break marker. -/
def isNewPageCmd : DrawCmd → Bool
  | .newPage => true
  | _ => false

/-- Image commands (only the logo is ever drawn as an image). -/
def isImageCmd : DrawCmd → Bool
  | .image _ _ _ _ => true
  | _ => false

/-- The right-aligned reviewed-by footer line of the detailed builder is
the only right text at position (194, 18.5). -/
def isRevLineD : DrawCmd → Bool
  | .rightText x y _ => x == 194 && y == 37/2
  | _ => false

/-- The reviewed-by footer line of the condensed builder is the only
right text at position (196, 16.5). -/
def isRevLineC : DrawCmd → Bool
  | .rightText x y _ => x == 196 && y == 33/2
  | _ => false

/-- Blank exactly the strings embedding the generation timestamp: texts
prefixed by the `Generated:` label, and the compact-header right text at
(194, 290), whose string interpolates the timestamp after area and
shift. -/
def eraseTs : DrawCmd → DrawCmd
  | .text x y s => .text x y (if ("Generated: ".data).isPrefixOf s then [] else s)
  | .rightText x y s =>
    .rightText x y
      (if (x == 194 && y == 290) || ("Generated: ".data).isPrefixOf s then [] else s)
  | c => c

/-- Forget all drawn strings, keeping command kind and geometry. -/
def cmdShape : DrawCmd → DrawCmd
  | .text x y _ => .text x y []
  | .rightText x y _ => .rightText x y []
  | c => c

/-- The string of a left-aligned text command. -/
def textOfCmd : DrawCmd → Option (List Char)
  | .text _ _ s => some s
  | _ => none

/-- The decoder modelling logo bytes that cannot be decoded. -/
def decFail : List Nat → Option (ℚ × ℚ) := fun _ => none

/-- Reset the reviewer fields of a context, as print-safe mode does. -/
def clearRev (ctx : PageCtx) : PageCtx :=
  { ctx with reviewed_by_pdf := [], review_date_pdf := [] }

/-- Concrete arguments used by closed counterexample theorems: a
non-empty reviewer name and review date. -/
def cexArgs : BuildArgs :=
  { logo_bytes := none, org_name := [], area := [], shift := ("D".data),
    created_at := ("T".data), completed_by := [], reviewed_by := ("N".data),
    review_date := ("J".data), incidents := [], staffing := [], residents := [],
    tasks := [], escalation := [], sbar := ("S".data), print_safe := false }

/-! ### Sanity checks of the Python models on concrete inputs
(each equality was replayed against CPython 3.11). -/

theorem pyWrap_check1 : pyWrap 5 ("aa bb cc".data) = ["aa bb".data, "cc".data] := by decide

theorem pyWrap_check2 : pyWrap 5 ("aaaaaaa bb".data) = ["aaaaaaa".data, "bb".data] := by decide

theorem pyWrap_check3 : pyWrap 4 ("ab abcdef cd".data) = ["ab".data, "abcdef".data, "cd".data] := by
  decide

theorem pyWrap_check4 : pyWrap 3 ("a b c d e".data) = ["a b".data, "c d".data, "e".data] := by
  decide

theorem pyWrap_check5 : pyWrap 5 ("a\tb".data) = ["a".data, "b".data] := by decide

theorem pyWrap_check6 : pyWrap 92 ("None reported.".data) = ["None reported.".data] := by decide

theorem pySplitlines_check :
    pySplitlines ("a\r\n\nb\rc".data) = ["a".data, [], "b".data, "c".data] := by decide

theorem clean_lines_check :
    cleanTxt ("- a\n• b \n \n c".data) = ["a".data, "b".data, "c".data] := by decide

/-! ### Helper lemmas about Python stripping -/

theorem dropWhile_head_not (p : Char → Bool) :
    ∀ (l : List Char) (c : Char), (l.dropWhile p).head? = some c → p c = false := by
  intro l
  induction l with
  | nil => intro c h; simp [List.dropWhile] at h
  | cons a l ih =>
    intro c h
    rw [List.dropWhile_cons] at h
    by_cases hp : p a
    · rw [if_pos hp] at h; exact ih c h
    · rw [if_neg hp] at h
      simp only [List.head?_cons, Option.some.injEq] at h
      subst h
      exact Bool.eq_false_iff.mpr hp

theorem pyStrip_head_not (p : Char → Bool) (s : List Char) (c : Char)
    (h : (pyStrip p s).head? = some c) : p c = false := by
  obtain ⟨u, hu⟩ := List.rdropWhile_prefix p (s.dropWhile p)
  apply dropWhile_head_not p s c
  rw [← hu]
  rcases he : pyStrip p s with _ | ⟨a, t⟩
  · rw [he] at h; simp at h
  · rw [he] at h
    simp only [List.head?_cons, Option.some.injEq] at h
    subst h
    unfold pyStrip at he
    rw [he]
    rfl

theorem pyStrip_getLast_not (p : Char → Bool) (s : List Char) (c : Char)
    (h : (pyStrip p s).getLast? = some c) : p c = false := by
  unfold pyStrip at h
  rw [List.rdropWhile, List.getLast?_reverse] at h
  exact dropWhile_head_not p _ c h

theorem dropWhile_append_self (p : Char → Bool) (s r : List Char)
    (hs : s.dropWhile p = s) (hne : s ≠ []) : (s ++ r).dropWhile p = s ++ r := by
  rcases s with _ | ⟨a, t⟩
  · exact absurd rfl hne
  · have hpa : p a = false := by
      by_contra hcon
      have hpa : p a = true := by
        cases hpab : p a
        · exact absurd hpab hcon
        · rfl
      rw [List.dropWhile_cons, if_pos hpa] at hs
      have hlen : (t.dropWhile p).length ≤ t.length := (List.dropWhile_sublist p).length_le
      rw [hs] at hlen
      simp at hlen
    rw [List.cons_append, List.dropWhile_cons, hpa]
    simp

theorem pyStripWs_fix (s : List Char) (hhead : s.dropWhile pyIsSpace = s)
    (_hne : s ≠ []) (hlast : ∀ c, s.getLast? = some c → pyIsSpace c = false) :
    pyStripWs s = s := by
  unfold pyStripWs pyStrip
  rw [hhead]
  rw [List.rdropWhile_eq_self_iff]
  intro hl hp
  have := hlast (s.getLast hl) (List.getLast?_eq_getLast s hl)
  rw [hp] at this
  exact Bool.true_eq_false.mp this

/-! ### Claim C3 -/

/-- Claim C3 (counterexample): `clean` is claimed to strip leading and
trailing whitespace from each kept line, but the source strips only the
four characters space, tab, hyphen and bullet: on the input consisting of
a no-break space (U+00A0, whitespace for Python) followed by `a`, the
returned item still starts with that whitespace character. -/
theorem claim_C3_counterexample :
    cleanTxt ("\u00A0a".data) = ["\u00A0a".data] ∧ pyIsSpace '\u00A0' = true := by
  decide

/-- Claim C3 (amended): `clean` splits on line boundaries, strips spaces,
tabs, hyphens and bullet characters (not all whitespace) from both ends
of each line, discards lines with no non-whitespace character left, and
keeps the rest in original order without deduplication; null and empty
input give `[]`, the quoted example holds, no kept item is empty or
whitespace-only, and no kept item starts or ends with a character of
the stripped set. -/
theorem claim_C3_clean_amended :
    (clean_lines none = [] ∧ clean_lines (some []) = [] ∧
      cleanTxt ("- a\n• b \n \n c".data) = ["a".data, "b".data, "c".data]) ∧
    (∀ t : List Char,
      List.Sublist (cleanTxt t) ((pySplitlines t).map (pyStrip stripSet))) ∧
    (∀ t ln, ln ∈ cleanTxt t → ∃ c ∈ ln, pyIsSpace c = false) ∧
    (∀ t ln c, ln ∈ cleanTxt t → ln.head? = some c → stripSet c = false) ∧
    (∀ t ln c, ln ∈ cleanTxt t → ln.getLast? = some c → stripSet c = false) := by
  refine ⟨⟨rfl, rfl, by decide⟩, ?_, ?_, ?_, ?_⟩
  · intro t
    rcases ht : t with _ | ⟨a, s⟩
    · simp [cleanTxt, clean_lines]
    · unfold cleanTxt clean_lines
      simp only [List.isEmpty_cons, if_neg]
      exact List.filter_sublist _
  · intro t ln hmem
    unfold cleanTxt clean_lines at hmem
    rcases t with _ | ⟨a, s⟩
    · simp at hmem
    · simp only [List.isEmpty_cons] at hmem
      have hf := List.of_mem_filter hmem
      simp only [Bool.not_eq_eq_eq_not, Bool.not_true] at hf
      by_contra hcon
      push_neg at hcon
      have hall : ∀ c ∈ ln, pyIsSpace c = true := by
        intro c hc
        cases hp : pyIsSpace c
        · exact absurd hp (hcon c hc)
        · rfl
      have : pyStripWs ln = [] := by
        unfold pyStripWs pyStrip
        rw [List.dropWhile_eq_nil_iff.mpr hall]
        rfl
      rw [this] at hf
      simp at hf
  · intro t ln c hmem hhead
    unfold cleanTxt clean_lines at hmem
    rcases t with _ | ⟨a, s⟩
    · simp at hmem
    · simp only [List.isEmpty_cons] at hmem
      have hm := List.mem_of_mem_filter hmem
      obtain ⟨l0, _, hl0⟩ := List.mem_map.mp hm
      subst hl0
      exact pyStrip_head_not _ _ _ hhead
  · intro t ln c hmem hlast
    unfold cleanTxt clean_lines at hmem
    rcases t with _ | ⟨a, s⟩
    · simp at hmem
    · simp only [List.isEmpty_cons] at hmem
      have hm := List.mem_of_mem_filter hmem
      obtain ⟨l0, _, hl0⟩ := List.mem_map.mp hm
      subst hl0
      exact pyStrip_getLast_not _ _ _ hlast

/-- Claim C3 witness: the amended theorem applied to the line `- a`,
whose kept item is `a`. -/
theorem claim_C3_witness :
    stripSet 'a' = false ∧ (∃ c ∈ ("a".data : List Char), pyIsSpace c = false) := by
  constructor
  · exact claim_C3_clean_amended.2.2.2.1 ("- a".data) ("a".data) 'a' (by decide) (by decide)
  · exact claim_C3_clean_amended.2.2.1 ("- a".data) ("a".data) (by decide)

/-! ### Claim C4 -/

/-- Claim C4 (counterexample): `summarize` is claimed to return the
literal token `none` if and only if `clean(text)` is empty, but on the
input text `none` the cleaned list is the non-empty `[none]` and the
joined result is again the literal `none`, so the only-if direction
fails. -/
theorem claim_C4_counterexample :
    pick_items ("none".data) 2 = noneTok ∧ cleanTxt ("none".data) ≠ [] := by
  decide

/-- Claim C4 (amended): `summarize(text, n)` returns the literal token
`none` if `clean(text)` is empty (the joined items can coincidentally
equal that token as well); otherwise it returns exactly the first
`min(n, len(items))` cleaned items, in original order, joined by the
two-character separator. -/
theorem claim_C4_summarize_amended (text : List Char) (n : Nat) :
    (cleanTxt text = [] → pick_items text n = noneTok) ∧
    (cleanTxt text ≠ [] →
      pick_items text n = List.intercalate semiSep ((cleanTxt text).take n) ∧
      ((cleanTxt text).take n).length = min n (cleanTxt text).length) := by
  constructor
  · intro h
    unfold pick_items
    rw [if_pos (List.isEmpty_iff.mpr h)]
  · intro h
    refine ⟨?_, List.length_take n (cleanTxt text)⟩
    unfold pick_items
    rw [if_neg ?_]
    intro hcon
    exact h (List.isEmpty_iff.mp hcon)

/-- Claim C4 witness: the amended theorem applied to the text `a` nl `b`
with `n = 5`. -/
theorem claim_C4_witness :
    pick_items ("a\nb".data) 5 =
      List.intercalate semiSep ((cleanTxt ("a\nb".data)).take 5) :=
  ((claim_C4_summarize_amended ("a\nb".data) 5).2 (by decide)).1

/-! ### Claim C5 -/

/-- Claim C5: the briefing sentence is the fixed-template concatenation,
with the escalation clause appended exactly when the stripped escalation
text is non-empty.  The hypotheses exclude an empty or
whitespace-leading area label, where the source substitutes the
placeholder `Area` or lets the final `strip()` eat the leading blank. -/
theorem claim_C5_sbar_template
    (area shift incidents staffing residents tasks escalation : List Char)
    (h1 : area ≠ []) (h2 : area.dropWhile pyIsSpace = area) :
    make_sbar_oneliner area shift incidents staffing residents tasks escalation =
      area ++ " ".data ++ shift ++ ": ".data ++ "incidents ".data ++
      pick_items incidents 2 ++ ", staffing ".data ++ pick_items staffing 2 ++
      "; ".data ++ "concerns ".data ++ pick_items residents 2 ++ "; ".data ++
      "tasks ".data ++ pick_items tasks 2 ++
      (if (pyStripWs escalation).isEmpty then []
       else "; escalate: ".data ++ pyStripWs escalation) ++ ".".data := by
  have harea : area.isEmpty = false := by
    rcases area with _ | ⟨a, t⟩
    · exact absurd rfl h1
    · rfl
  unfold make_sbar_oneliner
  simp only [harea, Bool.false_eq_true, if_false]
  rw [pyStripWs_fix]
  · simp [List.append_assoc]
  · simp only [List.append_assoc]
    exact dropWhile_append_self pyIsSpace area _ h2 h1
  · simp [h1]
  · intro c hc
    rw [List.getLast?_concat] at hc
    simp only [Option.some.injEq] at hc
    subst hc
    decide

/-- Claim C5 witness: the quoted scenario.  With the other sections
empty, the sentence is exactly the quoted prefix. -/
theorem claim_C5_witness :
    make_sbar_oneliner ("Cedar Wing".data) ("Night".data)
      ("Fall in lounge\nMedication delay".data) [] [] [] [] =
      ("Cedar Wing Night: incidents Fall in lounge; Medication delay, staffing none; concerns none; tasks none.".data) := by
  rw [claim_C5_sbar_template ("Cedar Wing".data) ("Night".data)
    ("Fall in lounge\nMedication delay".data) [] [] [] [] (by decide) (by decide)]
  decide

/-! ### Claim C10 -/

theorem pick_items_congr (t t2 : List Char)
    (h : (cleanTxt t).take 2 = (cleanTxt t2).take 2) :
    pick_items t 2 = pick_items t2 2 := by
  unfold pick_items
  rcases e1 : cleanTxt t with _ | ⟨a, l⟩ <;> rcases e2 : cleanTxt t2 with _ | ⟨b, m⟩ <;>
    rw [e1, e2] at h <;> simp_all

/-- Claim C10: the briefing-sentence builder invokes `pick_items` with
`n = 2` on each of the four sections, so its output depends on each
section's text only through the first two cleaned items: texts agreeing
on those produce identical sentences. -/
theorem claim_C10_sbar_first_two
    (area shift inc inc2 stf stf2 res res2 tas tas2 esc : List Char)
    (h1 : (cleanTxt inc).take 2 = (cleanTxt inc2).take 2)
    (h2 : (cleanTxt stf).take 2 = (cleanTxt stf2).take 2)
    (h3 : (cleanTxt res).take 2 = (cleanTxt res2).take 2)
    (h4 : (cleanTxt tas).take 2 = (cleanTxt tas2).take 2) :
    make_sbar_oneliner area shift inc stf res tas esc =
      make_sbar_oneliner area shift inc2 stf2 res2 tas2 esc := by
  unfold make_sbar_oneliner
  rw [pick_items_congr inc inc2 h1, pick_items_congr stf stf2 h2,
    pick_items_congr res res2 h3, pick_items_congr tas tas2 h4]

/-- Claim C10 witness: a third incident line never reaches the
sentence. -/
theorem claim_C10_witness :
    make_sbar_oneliner ("A".data) ("Day".data) ("a\nb\nc".data) [] [] [] [] =
      make_sbar_oneliner ("A".data) ("Day".data) ("a\nb".data) [] [] [] [] :=
  claim_C10_sbar_first_two ("A".data) ("Day".data) ("a\nb\nc".data) ("a\nb".data)
    [] [] [] [] [] [] [] (by decide) (by decide) (by decide) (by decide)

/-! ### Evaluation lemmas for the stream observers -/

@[simp] theorem revD_line (a b c d : ℚ) : isRevLineD (.line a b c d) = false := rfl

@[simp] theorem revD_rect (a b c d : ℚ) : isRevLineD (.rect a b c d) = false := rfl

@[simp] theorem revD_rrect (a b c d e : ℚ) : isRevLineD (.roundRect a b c d e) = false := rfl

@[simp] theorem revD_text (a b : ℚ) (s : List Char) : isRevLineD (.text a b s) = false := rfl

@[simp] theorem revD_image (a b c d : ℚ) : isRevLineD (.image a b c d) = false := rfl

@[simp] theorem revD_newPage : isRevLineD .newPage = false := rfl

@[simp] theorem revD_page (s : List Char) : isRevLineD (.rightText 194 22 s) = false := by
  simp only [isRevLineD]
  norm_num

@[simp] theorem revD_brand (s : List Char) :
    isRevLineD (.rightText 194 (2837/10) s) = false := by
  simp only [isRevLineD]
  norm_num

@[simp] theorem revD_compact (s : List Char) : isRevLineD (.rightText 194 290 s) = false := by
  simp only [isRevLineD]
  norm_num

@[simp] theorem revD_hit (s : List Char) : isRevLineD (.rightText 194 (37/2) s) = true := by
  simp only [isRevLineD]
  norm_num

@[simp] theorem revC_line (a b c d : ℚ) : isRevLineC (.line a b c d) = false := rfl

@[simp] theorem revC_rect (a b c d : ℚ) : isRevLineC (.rect a b c d) = false := rfl

@[simp] theorem revC_rrect (a b c d e : ℚ) : isRevLineC (.roundRect a b c d e) = false := rfl

@[simp] theorem revC_text (a b : ℚ) (s : List Char) : isRevLineC (.text a b s) = false := rfl

@[simp] theorem revC_image (a b c d : ℚ) : isRevLineC (.image a b c d) = false := rfl

@[simp] theorem revC_newPage : isRevLineC .newPage = false := rfl

@[simp] theorem revC_brand (s : List Char) : isRevLineC (.rightText 196 286 s) = false := by
  simp only [isRevLineC]
  norm_num

@[simp] theorem revC_meta (s : List Char) :
    isRevLineC (.rightText 192 (1292/5) s) = false := by
  simp only [isRevLineC]
  norm_num

@[simp] theorem revC_hit (s : List Char) : isRevLineC (.rightText 196 (33/2) s) = true := by
  simp only [isRevLineC]
  norm_num

@[simp] theorem np_line (a b c d : ℚ) : isNewPageCmd (.line a b c d) = false := rfl

@[simp] theorem np_rect (a b c d : ℚ) : isNewPageCmd (.rect a b c d) = false := rfl

@[simp] theorem np_rrect (a b c d e : ℚ) : isNewPageCmd (.roundRect a b c d e) = false := rfl

@[simp] theorem np_text (a b : ℚ) (s : List Char) : isNewPageCmd (.text a b s) = false := rfl

@[simp] theorem np_rt (a b : ℚ) (s : List Char) : isNewPageCmd (.rightText a b s) = false := rfl

@[simp] theorem np_image (a b c d : ℚ) : isNewPageCmd (.image a b c d) = false := rfl

@[simp] theorem np_newPage : isNewPageCmd .newPage = true := rfl

@[simp] theorem img_line (a b c d : ℚ) : isImageCmd (.line a b c d) = false := rfl

@[simp] theorem img_rect (a b c d : ℚ) : isImageCmd (.rect a b c d) = false := rfl

@[simp] theorem img_rrect (a b c d e : ℚ) : isImageCmd (.roundRect a b c d e) = false := rfl

@[simp] theorem img_text (a b : ℚ) (s : List Char) : isImageCmd (.text a b s) = false := rfl

@[simp] theorem img_rt (a b : ℚ) (s : List Char) : isImageCmd (.rightText a b s) = false := rfl

@[simp] theorem img_image (a b c d : ℚ) : isImageCmd (.image a b c d) = true := rfl

@[simp] theorem img_newPage : isImageCmd .newPage = false := rfl

@[simp] theorem isPrefixOf_append_self (p q : List Char) : p.isPrefixOf (p ++ q) = true := by
  induction p with
  | nil => simp [List.isPrefixOf]
  | cons a t ih => simp [List.isPrefixOf, ih]

/-! ### Shape of the stream pieces -/

theorem mem_lineTextCmdsUp (x : ℚ) (ls : List (List Char)) :
    ∀ (ty dh : ℚ) (c : DrawCmd),
      c ∈ lineTextCmdsUp x ty dh ls → ∃ a b s, c = .text a b s := by
  induction ls with
  | nil => intro ty dh c h; simp [lineTextCmdsUp] at h
  | cons l ls ih =>
    intro ty dh c h
    simp only [lineTextCmdsUp] at h
    rcases List.mem_cons.mp h with h1 | h2
    · exact ⟨_, _, _, h1⟩
    · exact ih _ _ c h2

theorem mem_lineTextCmdsDown (x : ℚ) (ls : List (List Char)) :
    ∀ (ty dh : ℚ) (c : DrawCmd),
      c ∈ lineTextCmdsDown x ty dh ls → ∃ a b s, c = .text a b s := by
  induction ls with
  | nil => intro ty dh c h; simp [lineTextCmdsDown] at h
  | cons l ls ih =>
    intro ty dh c h
    simp only [lineTextCmdsDown] at h
    rcases List.mem_cons.mp h with h1 | h2
    · exact ⟨_, _, _, h1⟩
    · exact ih _ _ c h2

theorem mem_cardBodyCmds (title : List Char) (ls : List (List Char)) (y : ℚ)
    (c : DrawCmd) (h : c ∈ cardBodyCmds title ls y) :
    (∃ a b s, c = .text a b s) ∨ (∃ a b w hh r, c = .roundRect a b w hh r) := by
  simp only [cardBodyCmds] at h
  rcases List.mem_cons.mp h with h1 | h
  · exact .inl ⟨_, _, _, h1⟩
  rcases List.mem_cons.mp h with h1 | h
  · exact .inr ⟨_, _, _, _, _, h1⟩
  · obtain ⟨a, b, s, rfl⟩ := mem_lineTextCmdsUp _ _ _ _ c h
    exact .inl ⟨a, b, s, rfl⟩

theorem mem_blockStepCmds (y : ℚ) (title text : List Char) (cap : Nat)
    (c : DrawCmd) (h : c ∈ (blockStep y title text cap).1) :
    (∃ a b s, c = .text a b s) ∨ (∃ a b w hh r, c = .roundRect a b w hh r) := by
  simp only [blockStep] at h
  rcases List.mem_cons.mp h with h1 | h
  · exact .inl ⟨_, _, _, h1⟩
  rcases List.mem_cons.mp h with h1 | h
  · exact .inr ⟨_, _, _, _, _, h1⟩
  · obtain ⟨a, b, s, rfl⟩ := mem_lineTextCmdsDown _ _ _ _ c h
    exact .inl ⟨a, b, s, rfl⟩

theorem filter_cardBody (p : DrawCmd → Bool)
    (hT : ∀ a b s, p (.text a b s) = true)
    (hR : ∀ a b w hh r, p (.roundRect a b w hh r) = true)
    (title : List Char) (ls : List (List Char)) (y : ℚ) :
    (cardBodyCmds title ls y).filter p = cardBodyCmds title ls y := by
  refine List.filter_eq_self.mpr ?_
  intro c hc
  rcases mem_cardBodyCmds _ _ _ _ hc with ⟨a, b, s, rfl⟩ | ⟨a, b, w, hh, r, rfl⟩
  · exact hT a b s
  · exact hR a b w hh r

theorem countP_cardBody (p : DrawCmd → Bool)
    (hT : ∀ a b s, p (.text a b s) = false)
    (hR : ∀ a b w hh r, p (.roundRect a b w hh r) = false)
    (title : List Char) (ls : List (List Char)) (y : ℚ) :
    (cardBodyCmds title ls y).countP p = 0 := by
  refine List.countP_eq_zero.mpr ?_
  intro c hc
  rcases mem_cardBodyCmds _ _ _ _ hc with ⟨a, b, s, rfl⟩ | ⟨a, b, w, hh, r, rfl⟩
  · simp [hT a b s]
  · simp [hR a b w hh r]

theorem filter_blockStep (p : DrawCmd → Bool)
    (hT : ∀ a b s, p (.text a b s) = true)
    (hR : ∀ a b w hh r, p (.roundRect a b w hh r) = true)
    (y : ℚ) (title text : List Char) (cap : Nat) :
    ((blockStep y title text cap).1).filter p = (blockStep y title text cap).1 := by
  refine List.filter_eq_self.mpr ?_
  intro c hc
  rcases mem_blockStepCmds _ _ _ _ _ hc with ⟨a, b, s, rfl⟩ | ⟨a, b, w, hh, r, rfl⟩
  · exact hT a b s
  · exact hR a b w hh r

theorem countP_blockStep (p : DrawCmd → Bool)
    (hT : ∀ a b s, p (.text a b s) = false)
    (hR : ∀ a b w hh r, p (.roundRect a b w hh r) = false)
    (y : ℚ) (title text : List Char) (cap : Nat) :
    ((blockStep y title text cap).1).countP p = 0 := by
  refine List.countP_eq_zero.mpr ?_
  intro c hc
  rcases mem_blockStepCmds _ _ _ _ _ hc with ⟨a, b, s, rfl⟩ | ⟨a, b, w, hh, r, rfl⟩
  · simp [hT a b s]
  · simp [hR a b w hh r]

/-! ### The print-safe filter chain -/

theorem footerD_clear (ctx : PageCtx) (p : Nat) :
    (footerCmdsD ctx p).filter (fun c => !isRevLineD c) = footerCmdsD (clearRev ctx) p := by
  by_cases h : (ctx.reviewed_by_pdf.isEmpty && ctx.review_date_pdf.isEmpty) = true
  · simp [footerCmdsD, clearRev, h, List.filter_append, List.filter]
  · simp [footerCmdsD, clearRev, h, List.filter_append, List.filter]

theorem compactD_clear (ctx : PageCtx) :
    compactHeaderCmds (clearRev ctx) = compactHeaderCmds ctx := rfl

theorem compactD_filter (ctx : PageCtx) :
    (compactHeaderCmds ctx).filter (fun c => !isRevLineD c) = compactHeaderCmds ctx := by
  simp [compactHeaderCmds, List.filter]

theorem ensure_clear (ctx : PageCtx) (r : ℚ) (st : DState) :
    ensureSpace (clearRev ctx) r st =
      ((ensureSpace ctx r st).1.filter (fun c => !isRevLineD c),
       (ensureSpace ctx r st).2) := by
  unfold ensureSpace
  by_cases h : st.y - r < 36
  · rw [if_pos h, if_pos h]
    simp only [Prod.mk.injEq]
    refine ⟨?_, trivial⟩
    rw [List.filter_append, footerD_clear, compactD_clear]
    simp only [List.filter_cons, revD_newPage, Bool.not_false, if_true, compactD_filter]
  · rw [if_neg h, if_neg h]
    rfl

theorem drawSection_clear (ctx : PageCtx) (title text : List Char) (st : DState) :
    drawSection (clearRev ctx) title text st =
      ((drawSection ctx title text st).1.filter (fun c => !isRevLineD c),
       (drawSection ctx title text st).2) := by
  dsimp only [drawSection]
  rw [ensure_clear]
  simp only [Prod.mk.injEq]
  refine ⟨?_, trivial⟩
  rw [List.filter_append,
    filter_cardBody (fun c => !isRevLineD c) (fun a b s => by simp)
      (fun a b w hh r => by simp)]

theorem drawNotes_clear (ctx : PageCtx) (title text : List Char) (st : DState) :
    drawNotes (clearRev ctx) title text st =
      ((drawNotes ctx title text st).1.filter (fun c => !isRevLineD c),
       (drawNotes ctx title text st).2) := by
  dsimp only [drawNotes]
  rw [ensure_clear]
  simp only [Prod.mk.injEq]
  refine ⟨?_, trivial⟩
  rw [List.filter_append,
    filter_cardBody (fun c => !isRevLineD c) (fun a b s => by simp)
      (fun a b w hh r => by simp)]

theorem runBlocks_clear (ctx : PageCtx) (bs : List (BlockKind × List Char × List Char)) :
    ∀ st, runBlocks (clearRev ctx) bs st =
      ((runBlocks ctx bs st).1.filter (fun c => !isRevLineD c),
       (runBlocks ctx bs st).2) := by
  induction bs with
  | nil => intro st; rfl
  | cons b bs ih =>
    intro st
    rcases b with ⟨k, t, x⟩
    cases k
    case sec =>
      dsimp only [runBlocks]
      rw [drawSection_clear, ih]
      dsimp only
      rw [List.filter_append]
    case notes =>
      dsimp only [runBlocks]
      rw [drawNotes_clear, ih]
      dsimp only
      rw [List.filter_append]

theorem headerBar_filter_revD (dec : List Nat → Option (ℚ × ℚ))
    (logo : Option (List Nat)) (org : List Char) :
    (headerBarCmds dec logo org).filter (fun c => !isRevLineD c) =
      headerBarCmds dec logo org := by
  unfold headerBarCmds drawLogoCmds
  rcases logo with _ | bs
  · simp [List.filter]
  · by_cases hb : bs.isEmpty
    · simp [hb, List.filter]
    · rcases hdec : dec bs with _ | wh <;>
        simp [hb, hdec, List.filter, List.filter_append]

theorem detailed_ps_filter (dec : List Nat → Option (ℚ × ℚ)) (a : BuildArgs) :
    pdf_build_detailed dec { a with print_safe := true } =
      (pdf_build_detailed dec { a with print_safe := false }).filter
        (fun c => !isRevLineD c) := by
  dsimp only [pdf_build_detailed, detailedBlockList]
  rw [show mkCtx { a with print_safe := true } =
    clearRev (mkCtx { a with print_safe := false }) from rfl]
  rw [runBlocks_clear]
  dsimp only
  rw [List.filter_append, List.filter_append, headerBar_filter_revD, footerD_clear]

theorem condFooter_clear (rbp rdp t : List Char) :
    (condFooterCmds rbp rdp t).filter (fun c => !isRevLineC c) =
      condFooterCmds [] [] t := by
  by_cases h : (rbp.isEmpty && rdp.isEmpty) = true
  · simp [condFooterCmds, h, List.filter_append, List.filter]
  · simp [condFooterCmds, h, List.filter_append, List.filter]

theorem mem_runCBlocks (bs : List (List Char × List Char × Nat)) :
    ∀ (y : ℚ) (c : DrawCmd), c ∈ (runCBlocks bs y).1 →
      (∃ a b s, c = .text a b s) ∨ (∃ a b w hh r, c = .roundRect a b w hh r) := by
  induction bs with
  | nil => intro y c h; simp [runCBlocks] at h
  | cons b bs ih =>
    intro y c h
    dsimp only [runCBlocks] at h
    rcases List.mem_append.mp h with h1 | h2
    · exact mem_blockStepCmds _ _ _ _ _ h1
    · exact ih _ c h2

theorem filter_runC (p : DrawCmd → Bool)
    (hT : ∀ a b s, p (.text a b s) = true)
    (hR : ∀ a b w hh r, p (.roundRect a b w hh r) = true)
    (bs : List (List Char × List Char × Nat)) (y : ℚ) :
    ((runCBlocks bs y).1).filter p = (runCBlocks bs y).1 := by
  refine List.filter_eq_self.mpr ?_
  intro c hc
  rcases mem_runCBlocks _ _ _ hc with ⟨a, b, s, rfl⟩ | ⟨a, b, w, hh, r, rfl⟩
  · exact hT a b s
  · exact hR a b w hh r

theorem countP_runC (p : DrawCmd → Bool)
    (hT : ∀ a b s, p (.text a b s) = false)
    (hR : ∀ a b w hh r, p (.roundRect a b w hh r) = false)
    (bs : List (List Char × List Char × Nat)) (y : ℚ) :
    ((runCBlocks bs y).1).countP p = 0 := by
  refine List.countP_eq_zero.mpr ?_
  intro c hc
  rcases mem_runCBlocks _ _ _ hc with ⟨a, b, s, rfl⟩ | ⟨a, b, w, hh, r, rfl⟩
  · simp [hT a b s]
  · simp [hR a b w hh r]

theorem titleBar_filter_revC (dec : List Nat → Option (ℚ × ℚ))
    (logo : Option (List Nat)) (org : List Char) :
    (titleBarCmds dec logo org).filter (fun c => !isRevLineC c) =
      titleBarCmds dec logo org := by
  unfold titleBarCmds drawLogoCmds
  rcases logo with _ | bs
  · simp [List.filter]
  · by_cases hb : bs.isEmpty
    · simp [hb, List.filter]
    · rcases hdec : dec bs with _ | wh <;>
        simp [hb, hdec, List.filter, List.filter_append]

theorem metaRow_filter_revC (area shift t : List Char) :
    (metaRowCmds area shift t).filter (fun c => !isRevLineC c) =
      metaRowCmds area shift t := by
  simp [metaRowCmds, List.filter]

theorem condensed_ps_filter (dec : List Nat → Option (ℚ × ℚ)) (a : BuildArgs) :
    pdf_build_one_page_condensed dec { a with print_safe := true } =
      (pdf_build_one_page_condensed dec { a with print_safe := false }).filter
        (fun c => !isRevLineC c) := by
  dsimp only [pdf_build_one_page_condensed, condBlockList]
  rw [List.filter_append, List.filter_append, List.filter_append,
    titleBar_filter_revC, metaRow_filter_revC,
    filter_runC (fun c => !isRevLineC c) (fun a b s => by simp)
      (fun a b w hh r => by simp),
    condFooter_clear]
  rfl

/-! ### Claim C7 -/

/-- Claim C7: toggling print-safe from false to true removes exactly the
reviewed-by footer line from the command stream of either builder (the
true stream is the filter of the false stream), so the sections drawn,
their item counts and every other command — including the page
breaks — are unchanged. -/
theorem claim_C7_print_safe_frame (dec : List Nat → Option (ℚ × ℚ)) (a : BuildArgs) :
    (pdf_build_detailed dec { a with print_safe := true } =
      (pdf_build_detailed dec { a with print_safe := false }).filter
        (fun c => !isRevLineD c)) ∧
    (pdf_build_one_page_condensed dec { a with print_safe := true } =
      (pdf_build_one_page_condensed dec { a with print_safe := false }).filter
        (fun c => !isRevLineC c)) :=
  ⟨detailed_ps_filter dec a, condensed_ps_filter dec a⟩

/-! ### Claim C6 -/

theorem countP_filter_not (p : DrawCmd → Bool) (l : List DrawCmd) :
    (l.filter (fun c => !p c)).countP p = 0 := by
  refine List.countP_eq_zero.mpr ?_
  intro c hc
  have h2 := List.of_mem_filter hc
  simp only [Bool.not_eq_eq_eq_not, Bool.not_true] at h2
  simp [h2]

theorem md_hidden_suffix
    (area shift created inc st res ta esc rb rd : List Char) :
    mdHiddenBlock <:+
      make_handover_summary_md area shift created inc st res ta esc rb rd true := by
  simp only [make_handover_summary_md, if_pos]
  exact List.suffix_append _ _

/-- Claim C6 (counterexample): with a non-empty reviewer name and date
and print-safe on, the detailed footer contains no reviewed-by command
at all (with print-safe off it contains exactly one), and the on-screen
summary renders the fixed non-empty placeholder block instead of empty
fields — the fields are omitted or replaced, never blank-but-reserved. -/
theorem claim_C6_counterexample :
    (footerCmdsD (mkCtx { cexArgs with print_safe := true }) 1).countP isRevLineD = 0 ∧
    (footerCmdsD (mkCtx cexArgs) 1).countP isRevLineD = 1 ∧
    mdHiddenBlock.isSuffixOf
      (make_handover_summary_md [] ("D".data) ("T".data) [] [] [] [] [] ("N".data)
        ("J".data) true) = true ∧
    mdHiddenBlock ≠ [] := by
  have hN : pyTruthyStrip ("N".data) = "N".data := by decide
  have hJ : pyTruthyStrip ("J".data) = "J".data := by decide
  refine ⟨?_, ?_, by decide, by decide⟩
  · simp [footerCmdsD, mkCtx, cexArgs, List.countP_cons, List.countP_append]
  · simp [footerCmdsD, mkCtx, cexArgs, hN, hJ, List.countP_cons, List.countP_append]

/-- Claim C6 (amended): when print-safe is true the reviewer and identity
fields are not rendered blank with the position reserved; the PDF
footers of both builders omit the reviewed-by line entirely, while the
on-screen summary is independent of the reviewer fields and ends with
the fixed placeholder block naming print-safe mode. -/
theorem claim_C6_print_safe_rendering (dec : List Nat → Option (ℚ × ℚ)) (a : BuildArgs)
    (area shift created inc st res ta esc rb rd : List Char) :
    (pdf_build_detailed dec { a with print_safe := true }).countP isRevLineD = 0 ∧
    (pdf_build_one_page_condensed dec { a with print_safe := true }).countP isRevLineC = 0 ∧
    make_handover_summary_md area shift created inc st res ta esc rb rd true =
      make_handover_summary_md area shift created inc st res ta esc [] [] true ∧
    mdHiddenBlock <:+
      make_handover_summary_md area shift created inc st res ta esc rb rd true := by
  refine ⟨?_, ?_, rfl, md_hidden_suffix area shift created inc st res ta esc rb rd⟩
  · rw [detailed_ps_filter]
    exact countP_filter_not _ _
  · rw [condensed_ps_filter]
    exact countP_filter_not _ _

/-! ### The logo-failure chain -/

theorem drawLogo_fail (logo : Option (List Nat)) (x y w h : ℚ) :
    drawLogoCmds decFail logo x y w h = [] := by
  rcases logo with _ | bs
  · rfl
  · by_cases hb : bs.isEmpty <;> simp [drawLogoCmds, decFail, hb]

theorem drawLogo_filter_img (dec : List Nat → Option (ℚ × ℚ))
    (logo : Option (List Nat)) (x y w h : ℚ) :
    (drawLogoCmds dec logo x y w h).filter (fun c => !isImageCmd c) = [] := by
  rcases logo with _ | bs
  · rfl
  · by_cases hb : bs.isEmpty
    · simp [drawLogoCmds, hb]
    · rcases hdec : dec bs with _ | wh <;> simp [drawLogoCmds, hb, hdec, List.filter]

theorem headerBar_img (dec : List Nat → Option (ℚ × ℚ)) (logo : Option (List Nat))
    (org : List Char) :
    (headerBarCmds dec logo org).filter (fun c => !isImageCmd c) =
      headerBarCmds decFail logo org := by
  unfold headerBarCmds
  rw [drawLogo_fail]
  simp [List.filter_cons, List.filter_append, drawLogo_filter_img, List.filter]

theorem titleBar_img (dec : List Nat → Option (ℚ × ℚ)) (logo : Option (List Nat))
    (org : List Char) :
    (titleBarCmds dec logo org).filter (fun c => !isImageCmd c) =
      titleBarCmds decFail logo org := by
  unfold titleBarCmds
  rw [drawLogo_fail]
  simp [List.filter_cons, List.filter_append, drawLogo_filter_img, List.filter]

theorem footerD_filter_img (ctx : PageCtx) (p : Nat) :
    (footerCmdsD ctx p).filter (fun c => !isImageCmd c) = footerCmdsD ctx p := by
  by_cases h : (ctx.reviewed_by_pdf.isEmpty && ctx.review_date_pdf.isEmpty) = true <;>
    simp [footerCmdsD, h, List.filter_append, List.filter]

theorem compactD_filter_img (ctx : PageCtx) :
    (compactHeaderCmds ctx).filter (fun c => !isImageCmd c) = compactHeaderCmds ctx := by
  simp [compactHeaderCmds, List.filter]

theorem ensure_filter_img (ctx : PageCtx) (r : ℚ) (st : DState) :
    ((ensureSpace ctx r st).1).filter (fun c => !isImageCmd c) =
      (ensureSpace ctx r st).1 := by
  unfold ensureSpace
  by_cases h : st.y - r < 36
  · rw [if_pos h]
    rw [List.filter_append, footerD_filter_img]
    simp only [List.filter_cons, img_newPage, Bool.not_false, if_true, compactD_filter_img]
  · rw [if_neg h]
    rfl

theorem drawSection_filter_img (ctx : PageCtx) (title text : List Char) (st : DState) :
    ((drawSection ctx title text st).1).filter (fun c => !isImageCmd c) =
      (drawSection ctx title text st).1 := by
  dsimp only [drawSection]
  rw [List.filter_append, ensure_filter_img,
    filter_cardBody (fun c => !isImageCmd c) (fun a b s => by simp)
      (fun a b w hh r => by simp)]

theorem drawNotes_filter_img (ctx : PageCtx) (title text : List Char) (st : DState) :
    ((drawNotes ctx title text st).1).filter (fun c => !isImageCmd c) =
      (drawNotes ctx title text st).1 := by
  dsimp only [drawNotes]
  rw [List.filter_append, ensure_filter_img,
    filter_cardBody (fun c => !isImageCmd c) (fun a b s => by simp)
      (fun a b w hh r => by simp)]

theorem runBlocks_filter_img (ctx : PageCtx)
    (bs : List (BlockKind × List Char × List Char)) :
    ∀ st, ((runBlocks ctx bs st).1).filter (fun c => !isImageCmd c) =
      (runBlocks ctx bs st).1 := by
  induction bs with
  | nil => intro st; rfl
  | cons b bs ih =>
    intro st
    rcases b with ⟨k, t, x⟩
    cases k
    case sec =>
      dsimp only [runBlocks]
      rw [List.filter_append, drawSection_filter_img, ih]
    case notes =>
      dsimp only [runBlocks]
      rw [List.filter_append, drawNotes_filter_img, ih]

theorem metaRow_filter_img (area shift t : List Char) :
    (metaRowCmds area shift t).filter (fun c => !isImageCmd c) =
      metaRowCmds area shift t := by
  simp [metaRowCmds, List.filter]

theorem condFooter_filter_img (rbp rdp t : List Char) :
    (condFooterCmds rbp rdp t).filter (fun c => !isImageCmd c) =
      condFooterCmds rbp rdp t := by
  by_cases h : (rbp.isEmpty && rdp.isEmpty) = true <;>
    simp [condFooterCmds, h, List.filter_append, List.filter]

/-! ### Claim C9 -/

/-- Claim C9: when the logo bytes cannot be decoded, both builders
produce exactly the stream they would produce with a decodable logo
minus the image command alone: generation proceeds, the header stays
text-only, and no other command is affected.  The failing-decoder
streams contain no image at all.  (Totality of the builders models that
the failure path never raises.) -/
theorem claim_C9_logo_decode_failure (dec : List Nat → Option (ℚ × ℚ)) (a : BuildArgs) :
    (pdf_build_detailed decFail a =
      (pdf_build_detailed dec a).filter (fun c => !isImageCmd c)) ∧
    (pdf_build_one_page_condensed decFail a =
      (pdf_build_one_page_condensed dec a).filter (fun c => !isImageCmd c)) ∧
    (pdf_build_detailed decFail a).countP isImageCmd = 0 ∧
    (pdf_build_one_page_condensed decFail a).countP isImageCmd = 0 := by
  have h1 : pdf_build_detailed decFail a =
      (pdf_build_detailed dec a).filter (fun c => !isImageCmd c) := by
    dsimp only [pdf_build_detailed]
    rw [List.filter_append, List.filter_append, headerBar_img,
      runBlocks_filter_img, footerD_filter_img]
  have h2 : pdf_build_one_page_condensed decFail a =
      (pdf_build_one_page_condensed dec a).filter (fun c => !isImageCmd c) := by
    dsimp only [pdf_build_one_page_condensed]
    rw [List.filter_append, List.filter_append, List.filter_append, titleBar_img,
      metaRow_filter_img,
      filter_runC (fun c => !isImageCmd c) (fun a b s => by simp)
        (fun a b w hh r => by simp),
      condFooter_filter_img]
  refine ⟨h1, h2, ?_, ?_⟩
  · rw [h1]
    exact countP_filter_not _ _
  · rw [h2]
    exact countP_filter_not _ _

/-! ### The timestamp-erasure chain -/

@[simp] theorem eraseTs_line (a b c d : ℚ) : eraseTs (.line a b c d) = .line a b c d := rfl

@[simp] theorem eraseTs_rect (a b c d : ℚ) : eraseTs (.rect a b c d) = .rect a b c d := rfl

@[simp] theorem eraseTs_rrect (a b c d e : ℚ) :
    eraseTs (.roundRect a b c d e) = .roundRect a b c d e := rfl

@[simp] theorem eraseTs_image (a b c d : ℚ) : eraseTs (.image a b c d) = .image a b c d := rfl

@[simp] theorem eraseTs_newPage : eraseTs .newPage = .newPage := rfl

@[simp] theorem eraseTs_genText (x y : ℚ) (t : List Char) :
    eraseTs (.text x y ("Generated: ".data ++ t)) = .text x y [] := by
  simp [eraseTs]

@[simp] theorem eraseTs_compactRT (s : List Char) :
    eraseTs (.rightText 194 290 s) = .rightText 194 290 [] := by
  simp [eraseTs]

@[simp] theorem eraseTs_metaRT (t : List Char) :
    eraseTs (.rightText 192 (1292/5) ("Generated: ".data ++ t)) =
      .rightText 192 (1292/5) [] := by
  simp [eraseTs]

@[simp] theorem eraseTs_genText_cons (x y : ℚ) (t : List Char) :
    eraseTs (.text x y
      ('G' :: 'e' :: 'n' :: 'e' :: 'r' :: 'a' :: 't' :: 'e' :: 'd' :: ':' :: ' ' :: t)) =
      .text x y [] := by
  have hs : ('G' :: 'e' :: 'n' :: 'e' :: 'r' :: 'a' :: 't' :: 'e' :: 'd' :: ':' :: ' ' :: t) =
      "Generated: ".data ++ t := rfl
  rw [hs]
  exact eraseTs_genText x y t

@[simp] theorem eraseTs_metaRT_cons (t : List Char) :
    eraseTs (.rightText 192 (1292/5)
      ('G' :: 'e' :: 'n' :: 'e' :: 'r' :: 'a' :: 't' :: 'e' :: 'd' :: ':' :: ' ' :: t)) =
      .rightText 192 (1292/5) [] := by
  have hs : ('G' :: 'e' :: 'n' :: 'e' :: 'r' :: 'a' :: 't' :: 'e' :: 'd' :: ':' :: ' ' :: t) =
      "Generated: ".data ++ t := rfl
  rw [hs]
  exact eraseTs_metaRT t

theorem footerD_ts (ctx : PageCtx) (t1 t2 : List Char) (p : Nat) :
    (footerCmdsD { ctx with created_at := t1 } p).map eraseTs =
      (footerCmdsD { ctx with created_at := t2 } p).map eraseTs := by
  by_cases h : (ctx.reviewed_by_pdf.isEmpty && ctx.review_date_pdf.isEmpty) = true <;>
    simp [footerCmdsD, h, List.map_append]

theorem compactD_ts (ctx : PageCtx) (t1 t2 : List Char) :
    (compactHeaderCmds { ctx with created_at := t1 }).map eraseTs =
      (compactHeaderCmds { ctx with created_at := t2 }).map eraseTs := by
  simp [compactHeaderCmds]

theorem ensure_ts (ctx : PageCtx) (t1 t2 : List Char) (r : ℚ) (st : DState) :
    ((ensureSpace { ctx with created_at := t1 } r st).1.map eraseTs =
      (ensureSpace { ctx with created_at := t2 } r st).1.map eraseTs) ∧
    (ensureSpace { ctx with created_at := t1 } r st).2 =
      (ensureSpace { ctx with created_at := t2 } r st).2 := by
  unfold ensureSpace
  by_cases h : st.y - r < 36
  · rw [if_pos h, if_pos h]
    refine ⟨?_, rfl⟩
    simp only [List.map_append, List.map_cons]
    rw [footerD_ts ctx t1 t2 st.page, compactD_ts ctx t1 t2]
  · rw [if_neg h, if_neg h]
    exact ⟨rfl, rfl⟩

theorem drawSection_ts (ctx : PageCtx) (t1 t2 title text : List Char) (st : DState) :
    ((drawSection { ctx with created_at := t1 } title text st).1.map eraseTs =
      (drawSection { ctx with created_at := t2 } title text st).1.map eraseTs) ∧
    (drawSection { ctx with created_at := t1 } title text st).2 =
      (drawSection { ctx with created_at := t2 } title text st).2 := by
  have he := ensure_ts ctx t1 t2 (requiredHeight (sectionBulletLines text).length) st
  dsimp only [drawSection]
  refine ⟨?_, ?_⟩
  · simp only [List.map_append]
    rw [he.1, he.2]
  · rw [he.2]

theorem drawNotes_ts (ctx : PageCtx) (t1 t2 title text : List Char) (st : DState) :
    ((drawNotes { ctx with created_at := t1 } title text st).1.map eraseTs =
      (drawNotes { ctx with created_at := t2 } title text st).1.map eraseTs) ∧
    (drawNotes { ctx with created_at := t1 } title text st).2 =
      (drawNotes { ctx with created_at := t2 } title text st).2 := by
  have he := ensure_ts ctx t1 t2 (requiredHeight (notesLines text).length) st
  dsimp only [drawNotes]
  refine ⟨?_, ?_⟩
  · simp only [List.map_append]
    rw [he.1, he.2]
  · rw [he.2]

theorem runBlocks_ts (ctx : PageCtx) (t1 t2 : List Char)
    (bs : List (BlockKind × List Char × List Char)) :
    ∀ st, ((runBlocks { ctx with created_at := t1 } bs st).1.map eraseTs =
      (runBlocks { ctx with created_at := t2 } bs st).1.map eraseTs) ∧
      (runBlocks { ctx with created_at := t1 } bs st).2 =
        (runBlocks { ctx with created_at := t2 } bs st).2 := by
  induction bs with
  | nil => intro st; exact ⟨rfl, rfl⟩
  | cons b bs ih =>
    intro st
    rcases b with ⟨k, t, x⟩
    cases k
    case sec =>
      dsimp only [runBlocks]
      have hd := drawSection_ts ctx t1 t2 t x st
      refine ⟨?_, ?_⟩
      · simp only [List.map_append]
        rw [hd.1, hd.2, (ih _).1]
      · rw [hd.2, (ih _).2]
    case notes =>
      dsimp only [runBlocks]
      have hd := drawNotes_ts ctx t1 t2 t x st
      refine ⟨?_, ?_⟩
      · simp only [List.map_append]
        rw [hd.1, hd.2, (ih _).1]
      · rw [hd.2, (ih _).2]

theorem metaRow_ts (area shift t1 t2 : List Char) :
    (metaRowCmds area shift t1).map eraseTs = (metaRowCmds area shift t2).map eraseTs := by
  simp [metaRowCmds]

theorem condFooter_ts (rbp rdp t1 t2 : List Char) :
    (condFooterCmds rbp rdp t1).map eraseTs = (condFooterCmds rbp rdp t2).map eraseTs := by
  by_cases h : (rbp.isEmpty && rdp.isEmpty) = true <;>
    simp [condFooterCmds, h, List.map_append]

theorem cmdShape_eraseTs : cmdShape ∘ eraseTs = cmdShape := by
  funext c
  cases c <;> rfl

theorem map_shape_of_ts {s1 s2 : List DrawCmd} (h : s1.map eraseTs = s2.map eraseTs) :
    s1.map cmdShape = s2.map cmdShape := by
  have e : ∀ l : List DrawCmd, l.map cmdShape = (l.map eraseTs).map cmdShape := by
    intro l
    rw [List.map_map, cmdShape_eraseTs]
  rw [e s1, e s2, h]

/-! ### Claim C8 -/

/-- Claim C8: the builders are pure functions of their arguments
(identical inputs give identical streams definitionally), and changing
only the injected generation timestamp changes only the
timestamp-bearing strings: erasing those strings makes the two streams
equal, and the geometry (command kinds and coordinates) is identical. -/
theorem claim_C8_timestamp_determinism (dec : List Nat → Option (ℚ × ℚ))
    (a : BuildArgs) (t1 t2 : List Char) :
    ((pdf_build_detailed dec { a with created_at := t1 }).map eraseTs =
      (pdf_build_detailed dec { a with created_at := t2 }).map eraseTs) ∧
    ((pdf_build_one_page_condensed dec { a with created_at := t1 }).map eraseTs =
      (pdf_build_one_page_condensed dec { a with created_at := t2 }).map eraseTs) ∧
    ((pdf_build_detailed dec { a with created_at := t1 }).map cmdShape =
      (pdf_build_detailed dec { a with created_at := t2 }).map cmdShape) ∧
    ((pdf_build_one_page_condensed dec { a with created_at := t1 }).map cmdShape =
      (pdf_build_one_page_condensed dec { a with created_at := t2 }).map cmdShape) := by
  have hr := runBlocks_ts (mkCtx a) t1 t2
    [(.sec, "Incidents today".data, a.incidents),
     (.sec, "Staffing issues".data, a.staffing),
     (.sec, "Residents of concern".data, a.residents),
     (.sec, "Tasks outstanding".data, a.tasks),
     (.notes, "Escalation / Notes".data, a.escalation),
     (.notes, "SBAR one-liner".data, a.sbar)] ⟨269, 1⟩
  have hd : (pdf_build_detailed dec { a with created_at := t1 }).map eraseTs =
      (pdf_build_detailed dec { a with created_at := t2 }).map eraseTs := by
    dsimp only [pdf_build_detailed, detailedBlockList]
    rw [show mkCtx { a with created_at := t1 } = { mkCtx a with created_at := t1 } from rfl,
      show mkCtx { a with created_at := t2 } = { mkCtx a with created_at := t2 } from rfl]
    simp only [List.map_append]
    rw [hr.1, hr.2, footerD_ts (mkCtx a) t1 t2]
  have hc : (pdf_build_one_page_condensed dec { a with created_at := t1 }).map eraseTs =
      (pdf_build_one_page_condensed dec { a with created_at := t2 }).map eraseTs := by
    dsimp only [pdf_build_one_page_condensed, condBlockList]
    simp only [List.map_append]
    rw [metaRow_ts a.area a.shift t1 t2, condFooter_ts _ _ t1 t2]
  exact ⟨hd, hc, map_shape_of_ts hd, map_shape_of_ts hc⟩

/-! ### Page-break counting -/

theorem footerD_countNP (ctx : PageCtx) (p : Nat) :
    (footerCmdsD ctx p).countP isNewPageCmd = 0 := by
  by_cases h : (ctx.reviewed_by_pdf.isEmpty && ctx.review_date_pdf.isEmpty) = true <;>
    simp [footerCmdsD, h, List.countP_append, List.countP_cons]

theorem compactD_countNP (ctx : PageCtx) :
    (compactHeaderCmds ctx).countP isNewPageCmd = 0 := by
  simp [compactHeaderCmds, List.countP_cons]

theorem titleBar_countNP (dec : List Nat → Option (ℚ × ℚ)) (logo : Option (List Nat))
    (org : List Char) : (titleBarCmds dec logo org).countP isNewPageCmd = 0 := by
  unfold titleBarCmds drawLogoCmds
  rcases logo with _ | bs
  · simp [List.countP_cons]
  · by_cases hb : bs.isEmpty
    · simp [hb, List.countP_cons]
    · rcases hdec : dec bs with _ | wh <;>
        simp [hb, hdec, List.countP_cons, List.countP_append]

theorem metaRow_countNP (area shift t : List Char) :
    (metaRowCmds area shift t).countP isNewPageCmd = 0 := by
  simp [metaRowCmds, List.countP_cons]

theorem condFooter_countNP (rbp rdp t : List Char) :
    (condFooterCmds rbp rdp t).countP isNewPageCmd = 0 := by
  by_cases h : (rbp.isEmpty && rdp.isEmpty) = true <;>
    simp [condFooterCmds, h, List.countP_append, List.countP_cons]

/-! ### Claim C1 -/

/-- Claim C1: the space a section needs is computed from its wrapped
bullet-line count by the fixed formula before anything of the section is
drawn; a page break (footer, page advance, compact header) is emitted
before the section title exactly when the remaining space above the
footer-reserved zone is smaller than that requirement; and the block of
title-and-card commands that follows contains no page break, so a
section's title and card always land on one page. -/
theorem claim_C1_page_break_lookahead (ctx : PageCtx) (title text : List Char)
    (st : DState) :
    ((drawSection ctx title text st).1 =
      (if st.y - requiredHeight (sectionBulletLines text).length < 36
       then footerCmdsD ctx st.page ++ .newPage :: compactHeaderCmds ctx
       else []) ++
      cardBodyCmds title (sectionBulletLines text)
        (if st.y - requiredHeight (sectionBulletLines text).length < 36
         then 277 else st.y)) ∧
    (cardBodyCmds title (sectionBulletLines text)
      (if st.y - requiredHeight (sectionBulletLines text).length < 36
       then 277 else st.y)).countP isNewPageCmd = 0 ∧
    (drawSection ctx title text st).1.countP isNewPageCmd =
      (if st.y - requiredHeight (sectionBulletLines text).length < 36
       then 1 else 0) := by
  have hcb : ∀ y : ℚ, (cardBodyCmds title (sectionBulletLines text) y).countP
      isNewPageCmd = 0 :=
    fun y => countP_cardBody isNewPageCmd (fun _ _ _ => rfl) (fun _ _ _ _ _ => rfl) _ _ y
  by_cases h : st.y - requiredHeight (sectionBulletLines text).length < 36
  · dsimp only [drawSection]
    unfold ensureSpace
    rw [if_pos h, if_pos h, if_pos h, if_pos h]
    refine ⟨rfl, hcb 277, ?_⟩
    simp [List.countP_append, List.countP_cons, footerD_countNP, compactD_countNP, hcb 277]
  · dsimp only [drawSection]
    unfold ensureSpace
    rw [if_neg h, if_neg h, if_neg h, if_neg h]
    refine ⟨rfl, hcb st.y, ?_⟩
    simp [List.countP_append, hcb st.y]

/-! ### Claim C2 -/

theorem filterMap_lineDown (x : ℚ) (ls : List (List Char)) :
    ∀ ty dh, (lineTextCmdsDown x ty dh ls).filterMap textOfCmd = ls := by
  induction ls with
  | nil => intro ty dh; rfl
  | cons l ls ih =>
    intro ty dh
    simp [lineTextCmdsDown, List.filterMap_cons, textOfCmd, ih]

/-- Claim C2: the condensed builder never emits a page break, so its
output is a single page for every input; every block is truncated to its
cap, with the literal marker line as last rendered line exactly when the
wrapped-line count exceeds the cap (and an untouched line list
otherwise); and the drawn text lines of a block are its title followed by
the truncated lines. -/
theorem claim_C2_condensed_one_page (dec : List Nat → Option (ℚ × ℚ)) (a : BuildArgs) :
    ((pdf_build_one_page_condensed dec a).countP isNewPageCmd = 0) ∧
    (∀ text cap, cap < (condBlockLines text).length →
      (condRendered text cap).length = cap + 1 ∧
      (condRendered text cap).getLast? = some moreTok) ∧
    (∀ text cap, ¬ cap < (condBlockLines text).length →
      condRendered text cap = condBlockLines text) ∧
    (∀ y title text cap,
      (blockStep y title text cap).1.filterMap textOfCmd =
        title :: condRendered text cap) := by
  refine ⟨?_, ?_, ?_, ?_⟩
  · dsimp only [pdf_build_one_page_condensed, condBlockList]
    simp [List.countP_append, titleBar_countNP, metaRow_countNP,
      countP_runC isNewPageCmd (fun _ _ _ => rfl) (fun _ _ _ _ _ => rfl),
      condFooter_countNP]
  · intro text cap h
    dsimp only [condRendered]
    rw [if_pos h]
    constructor
    · rw [List.length_append, List.length_take]
      simp [Nat.min_eq_left (Nat.le_of_lt h)]
    · exact List.getLast?_concat _
  · intro text cap h
    dsimp only [condRendered]
    rw [if_neg h]
  · intro y title text cap
    dsimp only [blockStep]
    simp [List.filterMap_cons, textOfCmd, filterMap_lineDown]

/-- Claim C2 witness: a seven-item block with cap six renders seven
lines whose last is the truncation marker. -/
theorem claim_C2_witness :
    (condRendered ("a\nb\nc\nd\ne\nf\ng".data) 6).length = 7 ∧
    (condRendered ("a\nb\nc\nd\ne\nf\ng".data) 6).getLast? = some moreTok :=
  (claim_C2_condensed_one_page decFail cexArgs).2.1 ("a\nb\nc\nd\ne\nf\ng".data) 6
    (by decide)

end Handover
